import Mathlib

/-! Verification development for the suppression-directive engine in
`packages/instrumenter/src/transformers/directive-bookkeeper.ts`.

The TypeScript module keeps, per file, an append-only chain of suppression
rules built from `// Stryker disable ...` and `// Stryker restore ...`
comments, and answers queries of the form: is mutator `m` suppressed at
line `l`, and why?  The definitions below are a shallow embedding of that
module: each definition carries the name of the TypeScript entity it
translates.  Strings are handled through their character lists so that all
definitions are structurally recursive and computable. -/

namespace DirectiveBookkeeping

/-- Translates `const WILDCARD = ...`, the wildcard mutator-name token. -/
def WILDCARD : String := "all"

/-- Translates `const DEFAULT_REASON = ...`, the reason recorded for a
disable directive that carries no explicit reason. -/
def DEFAULT_REASON : String := "Ignored using a comment"

/-- Translates `type IgnoreReason = string | undefined`. -/
abbrev IgnoreReason := Option String

/-- The rule chain: constructor `root` translates `const rootRule`, the
sentinel that never matches and has no previous link; constructor
`ignoreRule` translates `class IgnoreRule` (and its subclass `RestoreRule`,
which is an `IgnoreRule` whose `ignoreReason` is `undefined`, i.e. `none`).
Each rule holds its mutator names, an optional line, an optional reason and
its unique predecessor. -/
inductive Rule : Type where
  | root : Rule
  | ignoreRule (mutatorNames : List String) (line : Option Nat)
      (ignoreReason : IgnoreReason) (previousRule : Rule) : Rule
deriving DecidableEq

/-- Translates `class RestoreRule extends IgnoreRule`: a rule whose
`ignoreReason` is `undefined`. -/
def RestoreRule (mutatorNames : List String) (line : Option Nat) (previousRule : Rule) : Rule :=
  Rule.ignoreRule mutatorNames line none previousRule

/-- Translates the local `lineMatches` of `IgnoreRule.matches`:
`this.line === undefined or this.line === line`. -/
def lineMatches (l : Option Nat) (line : Nat) : Bool :=
  l == none || l == some line

/-- Translates the local `mutatorMatches` of `IgnoreRule.matches`:
`this.mutatorNames.includes(mutatorName) or this.mutatorNames.includes(WILDCARD)`. -/
def mutatorMatches (mutatorNames : List String) (mutatorName : String) : Bool :=
  mutatorNames.contains mutatorName || mutatorNames.contains WILDCARD

/-- Translates `IgnoreRule.matches(mutatorName, line)`. -/
def ruleMatches (mutatorNames : List String) (l : Option Nat) (mutatorName : String) (line : Nat) : Bool :=
  lineMatches l line && mutatorMatches mutatorNames mutatorName

/-- Translates `findIgnoreReason(mutatorName, line)` on the chain:
`IgnoreRule.findIgnoreReason` returns its own reason when it matches and
otherwise delegates to `previousRule`; `rootRule.findIgnoreReason` returns
`undefined` unconditionally. -/
def Rule.findIgnoreReason : Rule → String → Nat → IgnoreReason
  | .root, _, _ => none
  | .ignoreRule names l reason prev, name, line =>
    if ruleMatches names l name line then reason else prev.findIgnoreReason name line

/-- Characters matched by the JavaScript regular-expression class `\s` and
stripped by `String.prototype.trim`: ASCII whitespace plus the Unicode
space characters. -/
def isJsWhitespaceChar (c : Char) : Bool :=
  c == ' ' || c == '\t' || c == '\n' || c == Char.ofNat 0x0b || c == Char.ofNat 0x0c ||
  c == '\r' || c == Char.ofNat 0xa0 || c == Char.ofNat 0x1680 ||
  (0x2000 ≤ c.toNat && c.toNat ≤ 0x200a) ||
  c == Char.ofNat 0x2028 || c == Char.ofNat 0x2029 || c == Char.ofNat 0x202f ||
  c == Char.ofNat 0x205f || c == Char.ofNat 0x3000 || c == Char.ofNat 0xfeff

/-- Translates `String.prototype.trim()`: drop leading and trailing
whitespace. -/
def jsTrim (s : String) : String :=
  String.mk (((s.toList.dropWhile isJsWhitespaceChar).reverse.dropWhile isJsWhitespaceChar).reverse)

/-- Translates `String.prototype.toLowerCase()`.  All strings manipulated
by this module (directive keywords, mutator-name tokens from the character
class `[a-zA-Z, ]`, registered mutator names) are ASCII, where the
JavaScript conversion agrees with `Char.toLower`. -/
def jsToLowerCase (s : String) : String :=
  String.mk (s.toList.map Char.toLower)

/-- Translates `String.prototype.split(sep)` for the one-character
separator used by the module, the comma. -/
def splitOnCommaList : List Char → List (List Char)
  | [] => [[]]
  | c :: cs =>
    let rest := splitOnCommaList cs
    if c == ',' then [] :: rest
    else
      match rest with
      | [] => [[c]]
      | g :: gs => (c :: g) :: gs

/-- Translates `mutators.split(',')` as a function on strings. -/
def jsSplitComma (s : String) : List String :=
  (splitOnCommaList s.toList).map String.mk

/-- Characters matched by the regular-expression class `[a-zA-Z, ]` of
group 3 of `strykerCommentDirectiveRegex`. -/
def isMutatorClassChar (c : Char) : Bool :=
  ('a' ≤ c && c ≤ 'z') || ('A' ≤ c && c ≤ 'Z') || c == ',' || c == ' '

/-- Characters matched by the JavaScript regular-expression metacharacter
`.` (without the `s` flag): everything except the line terminators. -/
def isRegexDotChar (c : Char) : Bool :=
  !(c == '\n' || c == '\r' || c == Char.ofNat 0x2028 || c == Char.ofNat 0x2029)

/-- A successful match of `strykerCommentDirectiveRegex`: the four capture
groups of the tuple type the source casts the `exec` result to. -/
structure ExecResult where
  directiveType : String
  scope : Option String
  mutators : String
  optionalReason : Option String
deriving DecidableEq

/-- Matches a literal character sequence at the head of the input and
returns the remainder, or `none` when the literal does not match. -/
def stripPrefixList : List Char → List Char → Option (List Char)
  | [], cs => some cs
  | _ :: _, [] => none
  | p :: ps, c :: cs => if c == p then stripPrefixList ps cs else none

/-- Matches the tail `([a-zA-Z, ]+)(?::(.+)?)?` of the regular expression:
group 3 is the maximal nonempty run of name-class characters; when a colon
follows, group 4 is the maximal nonempty run of non-line-terminator
characters after it, absent when that run is empty. -/
def parseMutatorsAndReason (cs : List Char) : Option (String × Option String) :=
  let g3 := cs.takeWhile isMutatorClassChar
  if g3.isEmpty then none
  else
    match cs.dropWhile isMutatorClassChar with
    | ':' :: rest =>
      let g4 := rest.takeWhile isRegexDotChar
      if g4.isEmpty then some (String.mk g3, none)
      else some (String.mk g3, some (String.mk g4))
    | _ => some (String.mk g3, none)

/-- Matches `(?: (next-line))? ([a-zA-Z, ]+)(?::(.+)?)?`: the greedy
optional scope group is tried first and the match backtracks to the
scope-less alternative when the rest of the pattern fails after it. -/
def parseScopeMutatorsReason (cs : List Char) : Option (Option String × String × Option String) :=
  let withScope : Option (Option String × String × Option String) :=
    match stripPrefixList " next-line".toList cs with
    | some rest =>
      match rest with
      | ' ' :: rest2 => (parseMutatorsAndReason rest2).map (fun mr => (some "next-line", mr.1, mr.2))
      | _ => none
    | none => none
  match withScope with
  | some res => some res
  | none =>
    match cs with
    | ' ' :: rest => (parseMutatorsAndReason rest).map (fun mr => ((none : Option String), mr.1, mr.2))
    | _ => none

/-- Matches `Stryker (disable|restore)` followed by the rest of the
pattern, starting at the given position. -/
def execFrom (cs : List Char) : Option ExecResult :=
  match stripPrefixList "Stryker ".toList cs with
  | none => none
  | some rest =>
    let kindRest : Option (String × List Char) :=
      match stripPrefixList "disable".toList rest with
      | some r => some ("disable", r)
      | none =>
        match stripPrefixList "restore".toList rest with
        | some r => some ("restore", r)
        | none => none
    match kindRest with
    | none => none
    | some kr =>
      (parseScopeMutatorsReason kr.2).map fun smr =>
        { directiveType := kr.1, scope := smr.1, mutators := smr.2.1, optionalReason := smr.2.2 }

/-- Translates `strykerCommentDirectiveRegex.exec(comment.value)` for the
anchored pattern `^\s?Stryker (disable|restore)(?: (next-line))?
([a-zA-Z, ]+)(?::(.+)?)?`.  The optional leading `\s?` consumes one
whitespace character when present; when the first character is whitespace
the zero-width alternative cannot succeed because the literal `Stryker`
does not start with whitespace, so no backtracking is needed there. -/
def strykerCommentDirectiveRegexExec (value : String) : Option ExecResult :=
  match value.toList with
  | [] => none
  | c :: cs => if isJsWhitespaceChar c then execFrom cs else execFrom (c :: cs)

/-- Translates the `name` field of `NodeMutator`, the only part of the
mutator registry this module reads. -/
structure NodeMutator where
  name : String
deriving DecidableEq

/-- Translates the parts of a Babel `types.Node` this module reads: the
values of the leading comments (an absent `leadingComments` behaves as the
empty list) and `node.loc.start.line`. -/
structure BabelNode where
  leadingComments : List String
  startLine : Nat
deriving DecidableEq

/-- Translates the offset literal passed to `collector.collect`. -/
structure Offset where
  line : Int
  position : Int
deriving DecidableEq

/-- Translates the fields of the diagnostic `Mutant` the module builds for
an unused directive that this development reasons about: the offending
token and the explanatory message.  The remaining constructor arguments
(the node used as replacement, the id) are not read by any claim. -/
structure DiagMutant where
  mutatorName : String
  ignoreReason : String
deriving DecidableEq

/-- One entry recorded by the collector for an unused-directive
diagnostic. -/
structure CollectedDiagnostic where
  fileName : String
  nodeStartLine : Nat
  mutant : DiagMutant
  anchorLine : Int
deriving DecidableEq

/-- Modelled from the spec: `MutantCollector.collect` lives in
`mutant-collector.ts`, which is not part of the sources given here.  Per
the spec, the collector is a sink accepting a file id, the node, the
diagnostic mutant and an anchor location, and the anchor is the line
immediately above the annotated node; the call site passes the offset
literal with line -1, which is applied to the starting line of the node to
produce the anchor line. -/
def MutantCollector.collect (fileName : String) (node : BabelNode) (mutant : DiagMutant)
    (offset : Offset) : CollectedDiagnostic :=
  { fileName := fileName, nodeStartLine := node.startLine, mutant := mutant,
    anchorLine := (node.startLine : Int) + offset.line }

/-- A single-quote character, written by code point. -/
def squote : String := String.singleton (Char.ofNat 39)

/-- Translates the template literal for the diagnostic message: the word
Unused, the quoted directive keyword, and the word directive. -/
def unusedDirectiveMessage (directiveType : String) : String :=
  "Unused " ++ squote ++ "Stryker " ++ directiveType ++ squote ++ " directive"

/-- Translates the body of the `forEach` inside
`DirectiveBookkeeper.processStrykerDirectives`, applied to one regular
expression match: compute the lowercased mutator names, report one
diagnostic per trimmed non-wildcard token unknown to the registry, then
push the new rule determined by the directive type and scope.  Returns the
new chain head and the diagnostics reported to the collector, in order. -/
def processDirective (node : BabelNode) (allMutators : List NodeMutator) (originFileName : String)
    (r : ExecResult) (currentIgnoreRule : Rule) : Rule × List CollectedDiagnostic :=
  let mutatorNames := (jsSplitComma r.mutators).map (fun m => jsToLowerCase (jsTrim m))
  let directives := ((jsSplitComma r.mutators).map (fun m => jsTrim m)).filter
    (fun m => m != WILDCARD)
  let diagnostics := (directives.filter
      (fun d => !((allMutators.map (fun x => jsToLowerCase x.name)).contains (jsToLowerCase d)))).map
    (fun d => MutantCollector.collect originFileName node
      { mutatorName := d, ignoreReason := unusedDirectiveMessage r.directiveType }
      { line := -1, position := 0 })
  let reason := jsTrim (r.optionalReason.getD DEFAULT_REASON)
  let newRule :=
    if r.directiveType = "disable" then
      if r.scope = some "next-line" then
        Rule.ignoreRule mutatorNames (some node.startLine) (some reason) currentIgnoreRule
      else
        Rule.ignoreRule mutatorNames none (some reason) currentIgnoreRule
    else if r.directiveType = "restore" then
      if r.scope = some "next-line" then
        RestoreRule mutatorNames (some node.startLine) currentIgnoreRule
      else
        RestoreRule mutatorNames none currentIgnoreRule
    else currentIgnoreRule
  (newRule, diagnostics)

/-- Folds `processDirective` over the parsed directives of one node, in
comment order, threading the chain head and concatenating the collected
diagnostics: the `forEach` loop of `processStrykerDirectives`. -/
def processDirectiveList (node : BabelNode) (allMutators : List NodeMutator) (originFileName : String) :
    List ExecResult → Rule → Rule × List CollectedDiagnostic
  | [], current => (current, [])
  | r :: rs, current =>
    let step := processDirective node allMutators originFileName r current
    let rest := processDirectiveList node allMutators originFileName rs step.1
    (rest.1, step.2 ++ rest.2)

/-- Translates the mutable state of `class DirectiveBookkeeper`: the
current chain head, initialized to the sentinel root. -/
structure DirectiveBookkeeper where
  currentIgnoreRule : Rule
deriving DecidableEq

/-- Translates `DirectiveBookkeeper.processStrykerDirectives`: map the
regular expression over the leading comments of the node, keep the
matches, and process each in order.  Returns the updated bookkeeper and
the diagnostics passed to the collector. -/
def DirectiveBookkeeper.processStrykerDirectives (b : DirectiveBookkeeper) (node : BabelNode)
    (allMutators : List NodeMutator) (originFileName : String) :
    DirectiveBookkeeper × List CollectedDiagnostic :=
  let parsed := node.leadingComments.filterMap strykerCommentDirectiveRegexExec
  let res := processDirectiveList node allMutators originFileName parsed b.currentIgnoreRule
  ({ currentIgnoreRule := res.1 }, res.2)

/-- Translates `DirectiveBookkeeper.findIgnoreReason(line, mutatorName)`:
lowercase the mutator name and resolve it against the current chain head. -/
def DirectiveBookkeeper.findIgnoreReason (b : DirectiveBookkeeper) (line : Nat)
    (mutatorName : String) : Option String :=
  b.currentIgnoreRule.findIgnoreReason (jsToLowerCase mutatorName) line

/-- The same method with the receiver threaded explicitly, exposing that
the query writes no field of the bookkeeper: the method body only reads
`this.currentIgnoreRule`. -/
def DirectiveBookkeeper.findIgnoreReasonSt (b : DirectiveBookkeeper) (line : Nat)
    (mutatorName : String) : Option String × DirectiveBookkeeper :=
  (b.findIgnoreReason line mutatorName, b)

/-- Length of a chain: the number of pushed rules above the sentinel. -/
def Rule.size : Rule → Nat
  | .root => 0
  | .ignoreRule _ _ _ prev => prev.size + 1

/-- A fuelled variant of the resolver, used to state termination: it
consumes one unit of fuel per delegation step and returns `none` when the
fuel runs out before an answer is reached. -/
def Rule.findIgnoreReasonFuel : Nat → Rule → String → Nat → Option IgnoreReason
  | 0, _, _, _ => none
  | _ + 1, .root, _, _ => some none
  | fuel + 1, .ignoreRule names l reason prev, name, line =>
    if ruleMatches names l name line then some reason
    else Rule.findIgnoreReasonFuel fuel prev name line

/-- One step of the single linear pass the bookkeeper is used in: either
the traversal visits a node (whose directives are then processed) or the
generation phase queries the current chain. -/
inductive WalkEvent where
  | visit (node : BabelNode) : WalkEvent
  | query (line : Nat) (mutatorName : String) : WalkEvent
deriving DecidableEq

/-- The bookkeeper state after a sequence of walk events. -/
def walkState (M : List NodeMutator) (f : String) : DirectiveBookkeeper → List WalkEvent → DirectiveBookkeeper
  | b, [] => b
  | b, .visit n :: rest => walkState M f (b.processStrykerDirectives n M f).1 rest
  | b, .query _ _ :: rest => walkState M f b rest

/-- The answers the queries of a walk receive, in order: each query reads
the chain head as it stands when the query is issued. -/
def walkResults (M : List NodeMutator) (f : String) : DirectiveBookkeeper → List WalkEvent → List (Option String)
  | _, [] => []
  | b, .visit n :: rest => walkResults M f (b.processStrykerDirectives n M f).1 rest
  | b, .query line name :: rest => b.findIgnoreReason line name :: walkResults M f b rest

/-- The number of queries among a sequence of walk events. -/
def queryCount : List WalkEvent → Nat
  | [] => 0
  | .visit _ :: rest => queryCount rest
  | .query _ _ :: rest => 1 + queryCount rest

/-- Calls `findIgnoreReason` the given number of times with the same
arguments, threading the receiver state between the calls, and records the
results. -/
def queryRepeatedly : Nat → DirectiveBookkeeper → Nat → String → List (Option String)
  | 0, _, _, _ => []
  | n + 1, b, line, name =>
    (b.findIgnoreReasonSt line name).1 ::
      queryRepeatedly n (b.findIgnoreReasonSt line name).2 line name

/-- A rule with a line matches exactly the queries at that line. -/
theorem ruleMatches_some (names : List String) (L line : Nat) (name : String) :
    ruleMatches names (some L) name line = ((L == line) && mutatorMatches names name) := rfl

/-- A rule without a line matches a query at every line. -/
theorem ruleMatches_none (names : List String) (line : Nat) (name : String) :
    ruleMatches names none name line = mutatorMatches names name := rfl

/-- Splitting a walk: the answers of a concatenated walk are the answers
of the first part followed by the answers of the second part started in
the state the first part reaches. -/
theorem walkResults_append (M : List NodeMutator) (f : String) (b : DirectiveBookkeeper)
    (xs ys : List WalkEvent) :
    walkResults M f b (xs ++ ys) =
      walkResults M f b xs ++ walkResults M f (walkState M f b xs) ys := by
  induction xs generalizing b with
  | nil => rfl
  | cons e rest ih =>
    cases e with
    | visit n => simpa [walkResults, walkState] using ih (b.processStrykerDirectives n M f).1
    | query line name => simpa [walkResults, walkState] using ih b

/-- A walk produces one answer per query event. -/
theorem length_walkResults (M : List NodeMutator) (f : String) (b : DirectiveBookkeeper)
    (xs : List WalkEvent) : (walkResults M f b xs).length = queryCount xs := by
  induction xs generalizing b with
  | nil => rfl
  | cons e rest ih =>
    cases e with
    | visit n => simpa [walkResults, queryCount] using ih (b.processStrykerDirectives n M f).1
    | query line name => simp [walkResults, queryCount, ih b, Nat.add_comm]

/-- Rebuilding a string from its character list is the identity. -/
theorem stringMk_toList (s : String) : String.mk s.toList = s := rfl

/-- Splitting a comma-free character list yields the list itself. -/
theorem splitOnCommaList_no_comma (l : List Char) (h : ∀ c ∈ l, c ≠ ',') :
    splitOnCommaList l = [l] := by
  induction l with
  | nil => rfl
  | cons c cs ih =>
    have hc : (c == ',') = false := beq_eq_false_iff_ne.mpr (h c (List.mem_cons_self c cs))
    have ihcs := ih (fun x hx => h x (List.mem_cons_of_mem c hx))
    simp [splitOnCommaList, hc, ihcs]

/-- Splitting a comma-free string yields the string itself. -/
theorem jsSplitComma_no_comma (s : String) (h : ∀ c ∈ s.toList, c ≠ ',') :
    jsSplitComma s = [s] := by
  show (splitOnCommaList s.toList).map String.mk = [s]
  rw [splitOnCommaList_no_comma s.toList h]
  simp [stringMk_toList]

/-- Trimming an all-whitespace string yields the empty string. -/
theorem jsTrim_eq_empty (l : List Char) (h : ∀ c ∈ l, isJsWhitespaceChar c = true) :
    jsTrim (String.mk l) = "" := by
  have h1 : l.dropWhile isJsWhitespaceChar = [] := by
    rw [List.dropWhile_eq_nil_iff]
    exact fun x hx => h x hx
  show String.mk ((l.dropWhile isJsWhitespaceChar).reverse.dropWhile isJsWhitespaceChar).reverse = ""
  rw [h1]
  rfl

/-- Shape of the diagnostics of a single directive: each is anchored one
line above the node and carries a trimmed token different from the
wildcard. -/
theorem mem_processDirective_diagnostics {node : BabelNode} {M : List NodeMutator} {f : String}
    {r : ExecResult} {current : Rule} {d : CollectedDiagnostic}
    (hd : d ∈ (processDirective node M f r current).2) :
    d.anchorLine = (node.startLine : Int) - 1 ∧ d.mutant.mutatorName ≠ WILDCARD := by
  simp only [processDirective] at hd
  rcases List.mem_map.mp hd with ⟨t, ht, rfl⟩
  refine ⟨?_, ?_⟩
  · show (node.startLine : Int) + (-1) = (node.startLine : Int) - 1
    omega
  · have ht2 := (List.mem_filter.mp ht).1
    have ht3 := (List.mem_filter.mp ht2).2
    simpa using ht3

/-- The diagnostic shape is preserved across the loop over the parsed
directives of one node. -/
theorem mem_processDirectiveList_diagnostics {node : BabelNode} {M : List NodeMutator}
    {f : String} {rs : List ExecResult} {current : Rule} {d : CollectedDiagnostic}
    (hd : d ∈ (processDirectiveList node M f rs current).2) :
    d.anchorLine = (node.startLine : Int) - 1 ∧ d.mutant.mutatorName ≠ WILDCARD := by
  induction rs generalizing current with
  | nil => simp [processDirectiveList] at hd
  | cons r rs ih =>
    simp only [processDirectiveList, List.mem_append] at hd
    rcases hd with hd | hd
    · exact mem_processDirective_diagnostics hd
    · exact ih hd

/-- The diagnostic shape holds for everything `processStrykerDirectives`
reports to the collector. -/
theorem mem_processStrykerDirectives_diagnostics {b : DirectiveBookkeeper} {node : BabelNode}
    {M : List NodeMutator} {f : String} {d : CollectedDiagnostic}
    (hd : d ∈ (b.processStrykerDirectives node M f).2) :
    d.anchorLine = (node.startLine : Int) - 1 ∧ d.mutant.mutatorName ≠ WILDCARD := by
  simp only [DirectiveBookkeeper.processStrykerDirectives] at hd
  exact mem_processDirectiveList_diagnostics hd

/-- C1: after processing, in order, a file-wide disable-all directive and
then a restore-StringLiteral directive, a query for StringLiteral at any
line is not suppressed (the matched restore rule terminates resolution
with no reason, shadowing the older matching disable), while a query for
BooleanLiteral at any line is still suppressed with the reason of the
disable rule. -/
theorem C1_restore_shadows_disable (prev : Rule) (n1 n2 : BabelNode) (M1 M2 : List NodeMutator)
    (f1 f2 : String) (oreason : Option String) (line : Nat) :
    DirectiveBookkeeper.findIgnoreReason
      { currentIgnoreRule :=
          (processDirective n2 M2 f2
            { directiveType := "restore", scope := none, mutators := "StringLiteral",
              optionalReason := none }
            ((processDirective n1 M1 f1
              { directiveType := "disable", scope := none, mutators := "all",
                optionalReason := oreason }
              prev).1)).1 }
      line "StringLiteral" = none ∧
    DirectiveBookkeeper.findIgnoreReason
      { currentIgnoreRule :=
          (processDirective n2 M2 f2
            { directiveType := "restore", scope := none, mutators := "StringLiteral",
              optionalReason := none }
            ((processDirective n1 M1 f1
              { directiveType := "disable", scope := none, mutators := "all",
                optionalReason := oreason }
              prev).1)).1 }
      line "BooleanLiteral" = some (jsTrim (oreason.getD DEFAULT_REASON)) :=
  ⟨rfl, rfl⟩

/-- C2: when the two newest rules of the chain both match the query, the
reason returned is the one of the most recently pushed rule, whatever the
reasons, the scopes and the older part of the chain are: resolution walks
newest-first and the first match decides. -/
theorem C2_newest_matching_rule_wins (prev : Rule) (names1 names2 : List String)
    (l1 l2 : Option Nat) (r1 r2 : String) (line : Nat) (name : String)
    (h1 : ruleMatches names1 l1 (jsToLowerCase name) line = true)
    (h2 : ruleMatches names2 l2 (jsToLowerCase name) line = true)
    (hne : r1 ≠ r2) :
    DirectiveBookkeeper.findIgnoreReason
      { currentIgnoreRule := Rule.ignoreRule names2 l2 (some r2)
          (Rule.ignoreRule names1 l1 (some r1) prev) } line name = some r2 := by
  simp [DirectiveBookkeeper.findIgnoreReason, Rule.findIgnoreReason, h2]

/-- Witness for C2: a file-wide disable-all with one reason, then a
line-scoped disable of foo with another; the query returns the newer
reason. -/
theorem C2_newest_matching_rule_wins_witness :
    ruleMatches ["all"] none (jsToLowerCase "Foo") 3 = true ∧
    ruleMatches ["foo"] (some 3) (jsToLowerCase "Foo") 3 = true ∧
    ("first reason" : String) ≠ "second reason" ∧
    DirectiveBookkeeper.findIgnoreReason
      { currentIgnoreRule := Rule.ignoreRule ["foo"] (some 3) (some "second reason")
          (Rule.ignoreRule ["all"] none (some "first reason") Rule.root) } 3 "Foo" =
      some "second reason" :=
  ⟨by decide, by decide, by decide,
    C2_newest_matching_rule_wins Rule.root ["all"] ["foo"] none (some 3)
      "first reason" "second reason" 3 "Foo" (by decide) (by decide) (by decide)⟩

/-- C5: scoping.  First conjunct: a rule carrying a line (pushed by a
next-line directive anchored at node line L) answers a query exactly when
the query line equals L and the names match, and otherwise delegates, so
it affects no other line.  Second conjunct: a rule without a line (pushed
by a directive without the next-line scope) answers a query at every line
whose names match, so from the moment it is pushed it affects every line
until a newer matching rule shadows it.  Third conjunct: in the single
linear pass, the answers received by the queries issued before any later
events, in particular before the node carrying a directive is visited,
are unchanged by those later events; since queries for lines before a
file-wide directive are issued before the directive is processed, no such
line is affected by it. -/
theorem C5_directive_scoping (names : List String) (L : Nat) (r : IgnoreReason) (prev : Rule)
    (name : String) (line : Nat) (M : List NodeMutator) (f : String)
    (b : DirectiveBookkeeper) (pre rest : List WalkEvent) :
    ((Rule.ignoreRule names (some L) r prev).findIgnoreReason name line =
      if line = L ∧ mutatorMatches names name = true then r
      else prev.findIgnoreReason name line) ∧
    ((Rule.ignoreRule names none r prev).findIgnoreReason name line =
      if mutatorMatches names name = true then r
      else prev.findIgnoreReason name line) ∧
    ((walkResults M f b (pre ++ rest)).take (queryCount pre) = walkResults M f b pre) := by
  refine ⟨?_, ?_, ?_⟩
  · simp only [Rule.findIgnoreReason, ruleMatches_some]
    by_cases h : line = L
    · subst h
      by_cases hm : mutatorMatches names name = true <;> simp [hm]
    · have hb : (L == line) = false := beq_eq_false_iff_ne.mpr (fun e => h e.symm)
      simp [hb, h]
  · simp only [Rule.findIgnoreReason, ruleMatches_none]
  · rw [walkResults_append, ← length_walkResults M f b pre, List.take_left]

/-- C8: resolution always terminates: on every chain, fuel equal to the
chain length plus one lets the fuelled resolver finish with the answer of
the resolver (each rule delegates only to its unique predecessor, so the
walk is bounded by the chain length), and the sentinel root, which never
matches and has no previous link, answers absent when reached. -/
theorem C8_resolution_terminates (c : Rule) (name : String) (line : Nat) :
    Rule.findIgnoreReasonFuel (c.size + 1) c name line = some (c.findIgnoreReason name line) ∧
    Rule.root.findIgnoreReason name line = none := by
  refine ⟨?_, rfl⟩
  induction c with
  | root => rfl
  | ignoreRule names l reason prev ih =>
    simp only [Rule.size, Rule.findIgnoreReasonFuel, Rule.findIgnoreReason]
    split
    · rfl
    · exact ih

/-- C9: querying is pure: the method returns the bookkeeper unchanged, and
any number of repeated queries with the same line and mutator name and no
intervening directive processing all return the same result. -/
theorem C9_repeated_queries_stable (b : DirectiveBookkeeper) (line : Nat) (name : String)
    (n : Nat) :
    (b.findIgnoreReasonSt line name).2 = b ∧
    queryRepeatedly n b line name = List.replicate n (b.findIgnoreReason line name) := by
  refine ⟨rfl, ?_⟩
  induction n with
  | zero => rfl
  | succ k ih => simp [queryRepeatedly, List.replicate, ih, DirectiveBookkeeper.findIgnoreReasonSt]

/-- C3: every unused-directive diagnostic reported by
`processStrykerDirectives` is anchored at the line immediately above the
annotated node: its line equals the starting line of the node minus one.
The collector itself is modelled from the spec, which fixes the anchor as
the line immediately above the node; the call site always passes the
offset literal with line -1, which the modelled collector applies to the
starting line of the node. -/
theorem C3_diagnostic_anchored_line_above (b : DirectiveBookkeeper) (node : BabelNode)
    (M : List NodeMutator) (f : String) (d : CollectedDiagnostic)
    (hd : d ∈ (b.processStrykerDirectives node M f).2) :
    d.anchorLine = (node.startLine : Int) - 1 :=
  (mem_processStrykerDirectives_diagnostics hd).1

/-- Witness for C3: a node at line 5 annotated with an unknown directive
produces a diagnostic anchored at line 4. -/
theorem C3_diagnostic_anchored_line_above_witness :
    (DirectiveBookkeeper.processStrykerDirectives { currentIgnoreRule := Rule.root }
      { leadingComments := ["Stryker disable Typofied"], startLine := 5 } [] "f.js").2 =
      [{ fileName := "f.js", nodeStartLine := 5,
         mutant := { mutatorName := "Typofied", ignoreReason := unusedDirectiveMessage "disable" },
         anchorLine := 4 }] ∧
    ({ fileName := "f.js", nodeStartLine := 5,
       mutant := { mutatorName := "Typofied", ignoreReason := unusedDirectiveMessage "disable" },
       anchorLine := 4 } : CollectedDiagnostic).anchorLine = ((5 : Nat) : Int) - 1 :=
  ⟨by decide,
    C3_diagnostic_anchored_line_above { currentIgnoreRule := Rule.root }
      { leadingComments := ["Stryker disable Typofied"], startLine := 5 } [] "f.js"
      { fileName := "f.js", nodeStartLine := 5,
        mutant := { mutatorName := "Typofied", ignoreReason := unusedDirectiveMessage "disable" },
        anchorLine := 4 }
      (by decide)⟩

/-- Counterexample for C4: the token All equals the wildcard under
case-insensitive comparison, yet with an empty registry it produces an
unknown-name diagnostic, because the wildcard filter compares the trimmed
token against the wildcard case-sensitively. -/
theorem C4_counterexample :
    jsToLowerCase "All" = WILDCARD ∧
    ((processDirective { leadingComments := [], startLine := 1 } [] "file.js"
        { directiveType := "disable", scope := none, mutators := "All", optionalReason := none }
        Rule.root).2).map (fun d => d.mutant.mutatorName) = ["All"] :=
  ⟨by decide, by decide⟩

/-- C4 (amended): only the token exactly equal to the lowercase wildcard
is excluded from the name-validity check: no reported diagnostic ever
carries the token all, while other casings of the wildcard are checked
like ordinary names and can be reported (see the counterexample). -/
theorem C4_exact_wildcard_never_reported (b : DirectiveBookkeeper) (node : BabelNode)
    (M : List NodeMutator) (f : String) (d : CollectedDiagnostic)
    (hd : d ∈ (b.processStrykerDirectives node M f).2) :
    d.mutant.mutatorName ≠ WILDCARD :=
  (mem_processStrykerDirectives_diagnostics hd).2

/-- Witness for the amended C4: the diagnostic produced for the token All
carries a token different from the wildcard. -/
theorem C4_exact_wildcard_never_reported_witness :
    (DirectiveBookkeeper.processStrykerDirectives { currentIgnoreRule := Rule.root }
      { leadingComments := ["Stryker disable All"], startLine := 2 } [] "g.js").2 =
      [{ fileName := "g.js", nodeStartLine := 2,
         mutant := { mutatorName := "All", ignoreReason := unusedDirectiveMessage "disable" },
         anchorLine := 1 }] ∧
    ({ fileName := "g.js", nodeStartLine := 2,
       mutant := { mutatorName := "All", ignoreReason := unusedDirectiveMessage "disable" },
       anchorLine := 1 } : CollectedDiagnostic).mutant.mutatorName ≠ WILDCARD :=
  ⟨by decide,
    C4_exact_wildcard_never_reported { currentIgnoreRule := Rule.root }
      { leadingComments := ["Stryker disable All"], startLine := 2 } [] "g.js"
      { fileName := "g.js", nodeStartLine := 2,
        mutant := { mutatorName := "All", ignoreReason := unusedDirectiveMessage "disable" },
        anchorLine := 1 }
      (by decide)⟩

/-- C6: a disable directive whose comment supplies no captured reason
pushes a rule whose reason is exactly the default reason, Ignored using a
comment, whatever the scope and the mutator list are; and processing the
comment Stryker disable next-line StringLiteral on a node at line L makes
a query for StringLiteral at L return exactly that string. -/
theorem C6_default_reason (node : BabelNode) (M : List NodeMutator) (f : String)
    (scope : Option String) (mutators : String) (current : Rule)
    (L : Nat) (M2 : List NodeMutator) (f2 : String) :
    ((processDirective node M f
        { directiveType := "disable", scope := scope, mutators := mutators,
          optionalReason := none } current).1 =
      Rule.ignoreRule ((jsSplitComma mutators).map (fun m => jsToLowerCase (jsTrim m)))
        (if scope = some "next-line" then some node.startLine else none)
        (some DEFAULT_REASON) current) ∧
    ((DirectiveBookkeeper.processStrykerDirectives { currentIgnoreRule := Rule.root }
        { leadingComments := [" Stryker disable next-line StringLiteral"], startLine := L }
        M2 f2).1).findIgnoreReason L "StringLiteral" = some "Ignored using a comment" := by
  have hjt : jsTrim DEFAULT_REASON = DEFAULT_REASON := by decide
  constructor
  · by_cases h : scope = some "next-line" <;> simp [processDirective, h, hjt]
  · have hstate : (DirectiveBookkeeper.processStrykerDirectives { currentIgnoreRule := Rule.root }
        { leadingComments := [" Stryker disable next-line StringLiteral"], startLine := L }
        M2 f2).1 =
        { currentIgnoreRule :=
            Rule.ignoreRule ["stringliteral"] (some L) (some DEFAULT_REASON) Rule.root } := rfl
    rw [hstate]
    have hmm : mutatorMatches ["stringliteral"] (jsToLowerCase "StringLiteral") = true := by decide
    simp only [DirectiveBookkeeper.findIgnoreReason, Rule.findIgnoreReason, ruleMatches_some,
      hmm, beq_self_eq_true, Bool.and_self, if_true]
    rfl

/-- C7: a disable directive naming exactly one token (a comma-free
mutator list) that is not the wildcard and matches no registered mutator
name case-insensitively reports exactly one diagnostic, whose message is
the string Unused, quote, Stryker disable, quote, directive; processing
is a total function, so nothing is thrown. -/
theorem C7_unknown_token_single_diagnostic (node : BabelNode) (M : List NodeMutator) (f : String)
    (scope : Option String) (oreason : Option String) (t : String) (current : Rule)
    (hcomma : ∀ c ∈ t.toList, c ≠ ',')
    (hwild : jsTrim t ≠ WILDCARD)
    (hunknown : (M.map (fun x => jsToLowerCase x.name)).contains (jsToLowerCase (jsTrim t)) = false) :
    ((processDirective node M f
        { directiveType := "disable", scope := scope, mutators := t, optionalReason := oreason }
        current).2).map (fun d => d.mutant.ignoreReason) = [unusedDirectiveMessage "disable"] ∧
    ((processDirective node M f
        { directiveType := "disable", scope := scope, mutators := t, optionalReason := oreason }
        current).2).length = 1 := by
  have hsplit : jsSplitComma t = [t] := jsSplitComma_no_comma t hcomma
  have hbne : (jsTrim t != WILDCARD) = true := bne_iff_ne.mpr hwild
  have hb1 : (!((M.map (fun x => jsToLowerCase x.name)).contains (jsToLowerCase (jsTrim t)))) = true := by
    rw [hunknown]
    rfl
  simp only [processDirective, hsplit, List.map_cons, List.map_nil, List.filter, hbne, hb1,
    MutantCollector.collect, List.length_cons, List.length_nil]
  constructor <;> first | rfl | trivial

/-- Witness for C7: a directive naming Typofied against a registry
containing only StringLiteral yields exactly one diagnostic with the
unused-directive message. -/
theorem C7_unknown_token_single_diagnostic_witness :
    (∀ c ∈ ("Typofied" : String).toList, c ≠ ',') ∧
    jsTrim "Typofied" ≠ WILDCARD ∧
    (([({ name := "StringLiteral" } : NodeMutator)].map (fun x => jsToLowerCase x.name)).contains
      (jsToLowerCase (jsTrim "Typofied")) = false) ∧
    ((processDirective { leadingComments := [], startLine := 7 } [{ name := "StringLiteral" }]
        "h.js" { directiveType := "disable", scope := none, mutators := "Typofied",
                 optionalReason := none } Rule.root).2).map
      (fun d => d.mutant.ignoreReason) = [unusedDirectiveMessage "disable"] ∧
    ((processDirective { leadingComments := [], startLine := 7 } [{ name := "StringLiteral" }]
        "h.js" { directiveType := "disable", scope := none, mutators := "Typofied",
                 optionalReason := none } Rule.root).2).length = 1 :=
  ⟨by decide, by decide, by decide,
    (C7_unknown_token_single_diagnostic { leadingComments := [], startLine := 7 }
      [{ name := "StringLiteral" }] "h.js" none none "Typofied" Rule.root
      (by decide) (by decide) (by decide)).1,
    (C7_unknown_token_single_diagnostic { leadingComments := [], startLine := 7 }
      [{ name := "StringLiteral" }] "h.js" none none "Typofied" Rule.root
      (by decide) (by decide) (by decide)).2⟩

/-- Counterexample for C10: when the text after the colon is a newline,
it consists only of whitespace, yet the regular-expression dot does not
match a line terminator, so group 4 is absent, the pushed rule carries
the default reason, and a matching query returns the default reason, not
the empty string. -/
theorem C10_counterexample :
    (∀ c ∈ ("\n" : String).toList, isJsWhitespaceChar c = true) ∧
    strykerCommentDirectiveRegexExec ("Stryker disable Foo:" ++ "\n") =
      some { directiveType := "disable", scope := none, mutators := "Foo",
             optionalReason := none } ∧
    ((DirectiveBookkeeper.processStrykerDirectives { currentIgnoreRule := Rule.root }
        { leadingComments := ["Stryker disable Foo:" ++ "\n"], startLine := 1 } []
        "file.js").1).findIgnoreReason 2 "Foo" = some DEFAULT_REASON ∧
    DEFAULT_REASON ≠ "" :=
  ⟨by decide, by decide, by decide, by decide⟩

/-- C10 (amended): for a disable directive whose text after the colon is
nonempty, consists only of whitespace, and starts with a character the
regular-expression dot matches (not a line terminator), group 4 captures
the leading run of such characters, the captured reason trims to the
empty string, and the pushed rule records the empty string, not the
default reason; a subsequent matching query returns the empty string, a
present-but-empty suppression reason.  When the text after the colon
starts with a line terminator, group 4 is instead absent and the default
reason applies (see the counterexample). -/
theorem C10_whitespace_reason_empty (w : String) (M : List NodeMutator) (f : String)
    (L line : Nat)
    (hws : ∀ c ∈ w.toList, isJsWhitespaceChar c = true)
    (hhead : ∃ c cs, w.toList = c :: cs ∧ isRegexDotChar c = true) :
    ((DirectiveBookkeeper.processStrykerDirectives { currentIgnoreRule := Rule.root }
        { leadingComments := ["Stryker disable Foo:" ++ w], startLine := L } M f).1 =
      { currentIgnoreRule := Rule.ignoreRule ["foo"] none (some "") Rule.root }) ∧
    ((DirectiveBookkeeper.processStrykerDirectives { currentIgnoreRule := Rule.root }
        { leadingComments := ["Stryker disable Foo:" ++ w], startLine := L } M f).1).findIgnoreReason
      line "Foo" = some "" := by
  obtain ⟨c, cs, hw, hdot⟩ := hhead
  obtain ⟨wdata⟩ := w
  have hwd : wdata = c :: cs := hw
  subst hwd
  have hg4 : (c :: cs).takeWhile isRegexDotChar = c :: cs.takeWhile isRegexDotChar := by
    simp only [List.takeWhile, hdot]
  have hpm : parseMutatorsAndReason ('F' :: 'o' :: 'o' :: ':' :: c :: cs) =
      some ("Foo", some (String.mk (c :: cs.takeWhile isRegexDotChar))) := by
    show (if ((c :: cs).takeWhile isRegexDotChar).isEmpty then
            some (("Foo" : String), (none : Option String))
          else some ("Foo", some (String.mk ((c :: cs).takeWhile isRegexDotChar)))) = _
    rw [hg4]
    rfl
  have hexec : strykerCommentDirectiveRegexExec ("Stryker disable Foo:" ++ String.mk (c :: cs)) =
      some { directiveType := "disable", scope := none, mutators := "Foo",
             optionalReason := some (String.mk (c :: cs.takeWhile isRegexDotChar)) } := by
    show ((parseMutatorsAndReason ('F' :: 'o' :: 'o' :: ':' :: c :: cs)).map
        (fun mr => ((none : Option String), mr.1, mr.2))).map
        (fun smr => ({ directiveType := "disable", scope := smr.1, mutators := smr.2.1,
                       optionalReason := smr.2.2 } : ExecResult)) = _
    rw [hpm]
    rfl
  have hts : ∀ x ∈ c :: cs.takeWhile isRegexDotChar, isJsWhitespaceChar x = true := by
    intro x hx
    rcases List.mem_cons.mp hx with h | h
    · exact h ▸ hws c (List.mem_cons_self c cs)
    · exact hws x (List.mem_cons_of_mem c (List.takeWhile_subset _ h))
  have hreason : jsTrim (String.mk (c :: cs.takeWhile isRegexDotChar)) = "" :=
    jsTrim_eq_empty _ hts
  have hnames : (jsSplitComma "Foo").map (fun m => jsToLowerCase (jsTrim m)) = ["foo"] := by
    decide
  have hstate : (DirectiveBookkeeper.processStrykerDirectives { currentIgnoreRule := Rule.root }
      { leadingComments := ["Stryker disable Foo:" ++ String.mk (c :: cs)], startLine := L }
      M f).1 =
      { currentIgnoreRule := Rule.ignoreRule ["foo"] none (some "") Rule.root } := by
    simp only [DirectiveBookkeeper.processStrykerDirectives, List.filterMap_cons, hexec,
      List.filterMap_nil, processDirectiveList, processDirective, Option.getD_some, hnames,
      hreason, reduceIte]
    rfl
  refine ⟨hstate, ?_⟩
  rw [hstate]
  rfl

/-- Witness for the amended C10: a single space after the colon yields a
present-but-empty suppression reason. -/
theorem C10_whitespace_reason_empty_witness :
    (∀ c ∈ (" " : String).toList, isJsWhitespaceChar c = true) ∧
    (∃ c cs, (" " : String).toList = c :: cs ∧ isRegexDotChar c = true) ∧
    ((DirectiveBookkeeper.processStrykerDirectives { currentIgnoreRule := Rule.root }
        { leadingComments := ["Stryker disable Foo:" ++ " "], startLine := 1 } []
        "w.js").1).findIgnoreReason 2 "Foo" = some "" :=
  ⟨by decide, ⟨' ', [], rfl, by decide⟩,
    (C10_whitespace_reason_empty " " [] "w.js" 1 2 (by decide) ⟨' ', [], rfl, by decide⟩).2⟩

end DirectiveBookkeeping
